import Mathlib

/-!
# Verification of the fixture reconciliation and multi-stage validation engine

Shallow embedding of `driver/fixtures/fixtures.go` (package `fixtures`):
the golden-file reconciler, the per-stage fixture loop with its shared
parse-error budget, the syntax-error fixture classification, and the
semantic-stage forbidden-type (blacklist) scan.

External collaborators (the native driver, the transformation pipeline,
the YAML marshaller) are modelled as data carried by each fixture entry:
the driver's parse outcome, the transform result and the marshalled text
are inputs to the engine, exactly as they are opaque calls in the source.
-/

namespace Fixtures

/-- `syntaxErrTestName` constant of fixtures.go: fixtures whose file name
contains this marker are expected to fail parsing with an input error. -/
def synErrTestName : String := "_syntax_error"

/-- `maxParseErrors` constant of fixtures.go: the error-budget ceiling. -/
def maxParseErrors : Nat := 3

/-- `gotSuffix` constant: suffix of the pending-diff artifact. -/
def gotSuffix : String := "_got"

/-- `nativeExt` constant: suffix of the native-stage golden artifact. -/
def nativeExt : String := ".native"

/-- `uastExt` constant: suffix of the annotated-stage golden artifact. -/
def uastExt : String := ".uast"

/-- `highExt` constant: suffix of the semantic-stage golden artifact. -/
def highExt : String := ".sem.uast"

/-- Substring search on character lists: does `sub` occur (contiguously)
at some position of `s`? Checks a prefix match at every suffix of `s`. -/
def containsChars (sub : List Char) : List Char → Bool
  | [] => sub.isPrefixOf []
  | c :: rest => sub.isPrefixOf (c :: rest) || containsChars sub rest

/-- `strings.Contains(s, sub)`: whether `sub` occurs within `s`. -/
def containsStr (s sub : String) : Bool := containsChars sub.data s.data

/-- Whether a fixture file name marks an expected-syntax-error case
(`strings.Contains(fname, syntaxErrTestName)` in both stage loops). -/
def isSynErrName (fname : String) : Bool := containsStr fname synErrTestName

/-- `isTest(name, ext)` of fixtures.go: a directory entry is a fixture of
the suite when its name ends with the suite extension; its logical name is
the file name with the extension stripped (`strings.TrimSuffix`). -/
def isTest (name ext : String) : Option String :=
  if name.endsWith ext then some (name.dropRight ext.length) else none

/-- Result of `dr.Parse(ctx, code)` for one fixture. Errors are classified
by `driver.ErrDriverFailure.Is(err)`: `driverFailure = true` is an
infrastructure fault, `false` an input (syntax) error. A parse timeout
surfaces as an error as well. -/
inductive PRes where
  | ok
  | err (driverFailure : Bool)
deriving DecidableEq, Repr

/-- Whether the parse failed (`err != nil`). -/
def PRes.isErr : PRes → Bool
  | .ok => false
  | .err _ => true

/-- The fixture-store files relevant to one fixture at one stage: the
golden artifact `fname ++ suf` and the pending-diff artifact
`fname ++ suf ++ gotSuffix`. `none` means the file does not exist; note
that `some ""` (an existing empty file) is a distinct state. -/
structure Store where
  golden : Option String
  pending : Option String
deriving DecidableEq, Repr

/-- `readFixturesFile`: reads a file, mapping a does-not-exist error to
the empty string. An existing empty file is indistinguishable from a
missing one to the callers. -/
def readFile (f : Option String) : String := f.getD ""

/-- Outcome of the golden-reconciliation block at the end of a subtest. -/
inductive RecOutcome where
  /-- no golden found (`exp == ""`): golden written, `t.Skip` ("generating"). -/
  | generated
  /-- golden equals produced text: stale pending-diff deleted, subtest passes. -/
  | pass
  /-- mismatch, update flag off: pending-diff written, `require.Fail`
  reporting the pending-diff and golden artifact names. -/
  | failMismatch (gotName goldName : String)
  /-- mismatch, update flag on: golden overwritten, `t.Skip` ("force update"). -/
  | updatedSkip
deriving DecidableEq, Repr

/-- The golden-reconciliation block shared (up to the update flag and the
stage suffix) by `testFixturesNative` (lines 190-213) and
`testFixturesUAST` (lines 330-353):

```go
exp := s.readFixturesFile(t, fname+suf)
got := string(js)
if exp == "" { s.writeFixturesFile(t, fname+suf, got); t.Skip(...) }
if !assert.ObjectsAreEqual(exp, got) {
    ext := suf + gotSuffix
    if update { ext = suf }
    s.writeFixturesFile(t, fname+ext, got)
    if !update { require.Fail(t, ..., fname+ext, fname+suf) } else { t.Skip(...) }
} else {
    s.deleteFixturesFile(fname + suf + gotSuffix)
}
```

`assert.ObjectsAreEqual` on two strings is exact equality. -/
def reconcile (update : Bool) (fname suf : String) (st : Store) (got : String) :
    Store × RecOutcome :=
  let exp := readFile st.golden
  if exp = "" then
    ({ st with golden := some got }, .generated)
  else if exp ≠ got then
    if update then ({ st with golden := some got }, .updatedSkip)
    else ({ st with pending := some got }, .failMismatch (fname ++ suf ++ gotSuffix) (fname ++ suf))
  else
    ({ st with pending := none }, .pass)

/-! ## UAST nodes and the forbidden-type (blacklist) scan -/

/-- A `nodes.Node` value: an object (map) optionally carrying an `@type`
string (`typ = ""` models an absent tag, as `uast.TypeOf` returns `""`
then), an array, or a scalar value. Child order models the deterministic
iteration order of `nodes.WalkPreOrder`. -/
inductive NNode where
  | obj (typ : String) (kids : List NNode)
  | arr (kids : List NNode)
  | leaf

/-- `uast.TypeOf`: the `@type` tag of an object node, `""` otherwise. -/
def typeOf : NNode → String
  | .obj t _ => t
  | .arr _ => ""
  | .leaf => ""

mutual

/-- The sequence of `uast.TypeOf` values seen by `nodes.WalkPreOrder`:
the node itself first, then its children left to right. -/
def preTags : NNode → List String
  | .obj t kids => t :: preTagsList kids
  | .arr kids => "" :: preTagsList kids
  | .leaf => [""]

/-- Pre-order tags of a list of sibling nodes. -/
def preTagsList : List NNode → List String
  | [] => []
  | n :: ns => preTags n ++ preTagsList ns

end

/-- Namespace stripping inside the walk callback:

```go
if tr.Namespace != "" && strings.HasPrefix(typ, tr.Namespace+":") {
    typ = strings.TrimPrefix(typ, tr.Namespace+":")
}
``` -/
def stripNS (ns typ : String) : String :=
  let pre := ns.data ++ [':']
  if ns != "" && pre.isPrefixOf typ.data then String.mk (typ.data.drop pre.length)
  else typ

/-- The (namespace-stripped) tags the blacklist counting loop looks up in
`foundBlack`: every pre-order node whose raw tag is non-empty, after
stripping. -/
def semTags (ns : String) (t : NNode) : List String :=
  ((preTags t).filter (fun s => s != "")).map (stripNS ns)

/-- Final value of `foundBlack[typ]` after the walk, for a key `typ` of the
map: the number of nodes whose non-empty stripped tag equals `typ`. -/
def blackCount (ns : String) (t : NNode) (typ : String) : Nat :=
  (semTags ns t).count typ

/-- The entries of `foundBlack` surviving the reporting loop: blacklist
keys (the Go map collapses duplicates) whose count is non-zero, each
reported by `t.Errorf("blacklisted nodes of type %q (%d) found ...")`.
The list here fixes one enumeration order; the Go `range` order over the
map is unspecified (see `ReportedOrder`). -/
def violationsList (ns : String) (bl : List String) (t : NNode) : List (String × Nat) :=
  (bl.dedup.filter (fun k => blackCount ns t k != 0)).map (fun k => (k, blackCount ns t k))

/-- Whether the blacklist scan fails the subtest: at least one forbidden
tag had a non-zero count. -/
def blackScanFails (ns : String) (bl : List String) (t : NNode) : Bool :=
  violationsList ns bl t != []

/-- The possible violation reports of one run of the reporting loop
`for typ, cnt := range foundBlack { ... t.Errorf(...) }`: Go specifies no
iteration order for a map `range` (the runtime randomizes it), so a run
may emit the violating entries in any order. A list `l` is an admissible
report exactly when it is a permutation of the violation entries. -/
def ReportedOrder (ns : String) (bl : List String) (t : NNode) (l : List (String × Nat)) : Prop :=
  l.Perm (violationsList ns bl t)

/-! ## Per-fixture subtest bodies and the stage loop -/

/-- Outcome of one discovered fixture within a stage run. -/
inductive FOutcome where
  /-- the loop hit the budget check `parseErrors >= maxParseErrors` and
  returned before opening this fixture's subtest: no subtest exists. -/
  | notReached
  /-- the in-subtest budget check fired `t.SkipNow()`. -/
  | skippedBudget
  /-- syntax-error fixture: parse returned a non-driver-failure error, as
  required (`require.True` passed). -/
  | synPass
  /-- syntax-error fixture: parse succeeded or failed with a
  driver-failure error (`require.True` failed the subtest). -/
  | synFail
  /-- normal fixture: parse failed; budget incremented and
  `require.NoError` failed the subtest. -/
  | parseFail
  /-- `tr.Do` returned an error; `require.NoError` failed the subtest. -/
  | transformFail
  /-- the subtest reached validation and reconciliation: whether the
  blacklist scan reported violations, and the reconciliation outcome. -/
  | done (scanFailed : Bool) (ro : RecOutcome)
deriving DecidableEq, Repr

/-- One discovered fixture of the native stage with the behaviour of its
external collaborators: the file name, the `dr.Parse` result, the
`marshalNative` text of the parsed tree (used only on parse success), and
the stage's golden/pending files for this fixture. -/
structure NatFix where
  fname : String
  res : PRes
  produced : String
  store : Store
deriving DecidableEq, Repr

/-- Body of one `t.Run` subtest of `testFixturesNative` (lines 169-214),
given the budget counter value at entry; returns the outcome, the new
counter and the new store.

```go
if atomic.LoadUint32(&parseErrors) >= maxParseErrors { t.SkipNow() }
resp, err := dr.Parse(ctx, code)
if strings.Contains(fname, syntaxErrTestName) {
    require.True(t, err != nil && !driver.ErrDriverFailure.Is(err), ...)
    return
}
if err != nil { atomic.AddUint32(&parseErrors, 1) }
require.NoError(t, err)
js, _ := marshalNative(resp)
// ... reconcile against fname+nativeExt with the UpdateNative flag
``` -/
def stepNative (update : Bool) (c : Nat) (f : NatFix) : FOutcome × Nat × Store :=
  if c ≥ maxParseErrors then (.skippedBudget, c, f.store)
  else if isSynErrName f.fname then
    match f.res with
    | .err df => if df then (.synFail, c, f.store) else (.synPass, c, f.store)
    | .ok => (.synFail, c, f.store)
  else
    match f.res with
    | .err _ => (.parseFail, c + 1, f.store)
    | .ok =>
      let r := reconcile update f.fname nativeExt f.store f.produced
      (.done false r.2, c, r.1)

/-- Configuration of one `testFixturesUAST` run: the `UpdateUAST` flag,
the stage suffix (`uastExt` or `highExt`), the blacklist (non-empty only
for the semantic stage) and the pipeline namespace `tr.Namespace`. -/
structure UCfg where
  update : Bool
  suf : String
  blacklist : List String
  ns : String
deriving DecidableEq, Repr

/-- One discovered fixture of a UAST stage: file name, `dr.Parse` result,
the `tr.Do(ctx, mode, code, ast)` result on parse success (`none` models
a transform error), the `marshalUAST` text of that tree, and the stage's
golden/pending files for this fixture. -/
structure UFix where
  fname : String
  res : PRes
  ua : Option NNode
  produced : String
  store : Store

/-- Body of one `t.Run` subtest of `testFixturesUAST` (lines 242-357).
Note the order around the syntax-error check — the budget is incremented
on any parse error *before* the fixture class is examined:

```go
if atomic.LoadUint32(&parseErrors) >= maxParseErrors { t.SkipNow() }
ast, err := dr.Parse(ctx, code)
if err != nil { atomic.AddUint32(&parseErrors, 1) }
if strings.Contains(fname, syntaxErrTestName) {
    require.True(t, err != nil && !driver.ErrDriverFailure.Is(err), ...)
    return
}
require.NoError(t, err)
ua, err := tr.Do(ctx, mode, code, ast)
require.NoError(t, err)
if len(blacklist) != 0 { /* pre-order count, then report */ }
// (semantic mode also runs the registry-conformance scan, an external
//  uast-package concern; debug-only WritePreprocessed/WriteViewerJSON
//  side outputs are outside the modelled store)
un, _ := marshalUAST(ua)
// ... reconcile against fname+suf with the UpdateUAST flag
``` -/
def stepUAST (cfg : UCfg) (c : Nat) (f : UFix) : FOutcome × Nat × Store :=
  if c ≥ maxParseErrors then (.skippedBudget, c, f.store)
  else
    let c2 := match f.res with | .err _ => c + 1 | .ok => c
    if isSynErrName f.fname then
      match f.res with
      | .err df => if df then (.synFail, c2, f.store) else (.synPass, c2, f.store)
      | .ok => (.synFail, c2, f.store)
    else
      match f.res with
      | .err _ => (.parseFail, c2, f.store)
      | .ok =>
        match f.ua with
        | none => (.transformFail, c2, f.store)
        | some ua =>
          let scan := if cfg.blacklist.length != 0
            then blackScanFails cfg.ns cfg.blacklist ua else false
          let r := reconcile cfg.update f.fname cfg.suf f.store f.produced
          (.done scan r.2, c2, r.1)

/-- The per-stage fixture loop shared by both stage functions: iterate the
discovered fixtures in directory-scan order threading the budget counter;
at each loop head, if `parseErrors >= maxParseErrors` the function returns
(`return`), so the remaining fixtures get no subtest at all. Yields one
`FOutcome` per discovered fixture and the final counter. -/
def runList (step : Nat → α → FOutcome × Nat × Store) (c : Nat) :
    List α → List FOutcome × Nat
  | [] => ([], c)
  | f :: fs =>
    if c ≥ maxParseErrors then ((f :: fs).map (fun _ => FOutcome.notReached), c)
    else
      let r := step c f
      let rest := runList step r.2.1 fs
      (r.1 :: rest.1, rest.2)

/-- `testFixturesNative`: fresh local counter `var parseErrors uint32`
(zero) for the whole stage. -/
def runNative (update : Bool) (fs : List NatFix) : List FOutcome × Nat :=
  runList (stepNative update) 0 fs

/-- `testFixturesUAST`: fresh local counter `var parseErrors uint32`
(zero) for the whole stage. -/
def runUAST (cfg : UCfg) (fs : List UFix) : List FOutcome × Nat :=
  runList (stepUAST cfg) 0 fs

/-- `RunTests` (non-docker path): three sub-runs — `"native"`, `"uast"`
(annotated mode, `uastExt` suffix, no blacklist) and `"semantic"`
(semantic mode, `highExt` suffix, `s.Semantic.BlacklistTypes`). Each stage
function declares its own local `parseErrors` counter, so each sub-run
starts from zero and its counter is discarded when the stage returns. -/
def runTests (updNative updUAST : Bool) (ns : String) (bl : List String)
    (fsN : List NatFix) (fsA fsS : List UFix) :
    (List FOutcome × Nat) × (List FOutcome × Nat) × (List FOutcome × Nat) :=
  (runNative updNative fsN,
   runUAST { update := updUAST, suf := uastExt, blacklist := [], ns := ns } fsA,
   runUAST { update := updUAST, suf := highExt, blacklist := bl, ns := ns } fsS)

/-! ## Helper lemmas about the stage loop -/

/-- Once the counter has reached the ceiling at a loop head, the loop
returns: every remaining discovered fixture gets outcome `notReached` and
the counter is left as is. -/
theorem runList_stopped (step : Nat → α → FOutcome × Nat × Store) (c : Nat)
    (fs : List α) (h : maxParseErrors ≤ c) :
    runList step c fs = (fs.map (fun _ => FOutcome.notReached), c) := by
  cases fs with
  | nil => simp [runList]
  | cons f fs => simp [runList, h]

/-- The loop yields exactly one outcome per discovered fixture. -/
theorem runList_length (step : Nat → α → FOutcome × Nat × Store) (c : Nat)
    (fs : List α) : (runList step c fs).1.length = fs.length := by
  induction fs generalizing c with
  | nil => simp [runList]
  | cons f fs ih =>
    by_cases h : maxParseErrors ≤ c
    · simp [runList, h]
    · simp [runList, h, ih]

/-- A native subtest entered below the ceiling never reports the
in-subtest budget skip. -/
theorem stepNative_ne_skipped (u : Bool) (c : Nat) (f : NatFix)
    (h : c < maxParseErrors) :
    (stepNative u c f).1 ≠ FOutcome.skippedBudget := by
  have h2 : ¬ maxParseErrors ≤ c := Nat.not_le.mpr h
  rcases f with ⟨fn, res, prod, st⟩
  rcases res with _ | df
  · cases hb : isSynErrName fn <;> simp [stepNative, h2, hb]
  · cases hb : isSynErrName fn <;> cases df <;> simp [stepNative, h2, hb]

/-- A UAST subtest entered below the ceiling never reports the in-subtest
budget skip. -/
theorem stepUAST_ne_skipped (cfg : UCfg) (c : Nat) (f : UFix)
    (h : c < maxParseErrors) :
    (stepUAST cfg c f).1 ≠ FOutcome.skippedBudget := by
  have h2 : ¬ maxParseErrors ≤ c := Nat.not_le.mpr h
  rcases f with ⟨fn, res, ua, prod, st⟩
  rcases res with _ | df
  · cases hb : isSynErrName fn
    · cases ua <;> simp [stepUAST, h2, hb]
    · simp [stepUAST, h2, hb]
  · cases hb : isSynErrName fn <;> cases df <;> simp [stepUAST, h2, hb]

/-- In a sequential run the in-subtest budget skip (`t.SkipNow()` after
the `atomic.LoadUint32` re-check) is dead code: the loop head already
returned at the same counter value, so no subtest entered ever reports
`skippedBudget`. -/
theorem runList_no_skipped (step : Nat → α → FOutcome × Nat × Store)
    (hstep : ∀ (c : Nat) (f : α), c < maxParseErrors →
      (step c f).1 ≠ FOutcome.skippedBudget)
    (c : Nat) (fs : List α) :
    FOutcome.skippedBudget ∉ (runList step c fs).1 := by
  induction fs generalizing c with
  | nil => simp [runList]
  | cons f fs ih =>
    by_cases hc : maxParseErrors ≤ c
    · rw [runList_stopped _ _ _ hc]
      simp
    · simp only [runList, if_neg hc, List.mem_cons, not_or]
      exact ⟨fun h => (hstep c f (Nat.lt_of_not_le hc) h.symm), ih _⟩

/-! ## Claims -/

/-- C1 (counterexample). The claim says that once the error-budget
counter reaches the ceiling, "every remaining discovered fixture is
marked skipped". In the code, the loop head `return`s instead: no subtest
is opened for the remaining fixtures and nothing marks them skipped. In a
native run over three failing fixtures followed by a fourth discovered
fixture, the fourth gets outcome `notReached` (no subtest), which is not
the skip marker `skippedBudget` (the `t.SkipNow()` outcome). -/
theorem c1_counterexample :
    (runNative false
        [⟨"a.py", .err false, "", ⟨none, none⟩⟩,
         ⟨"b.py", .err false, "", ⟨none, none⟩⟩,
         ⟨"c.py", .err false, "", ⟨none, none⟩⟩,
         ⟨"d.py", .ok, "T", ⟨some "T", none⟩⟩]).1
      = [.parseFail, .parseFail, .parseFail, .notReached]
    ∧ FOutcome.notReached ≠ FOutcome.skippedBudget := by
  exact ⟨by decide, by decide⟩

/-- C1 (amended). For every suite run, once the shared error-budget
counter has reached the ceiling (3), no further new fixture subtest is
started in that run: the loop returns, so every remaining discovered
fixture is left without a subtest (outcome `notReached`) rather than
being marked skipped — the in-subtest skip check never fires in a
sequential run. Fixtures whose subtests already started still run to
completion (every discovered fixture has exactly one recorded outcome). -/
theorem c1_amended :
    (∀ (u : Bool) (c : Nat) (fs : List NatFix), maxParseErrors ≤ c →
      runList (stepNative u) c fs = (fs.map (fun _ => FOutcome.notReached), c))
    ∧ (∀ (cfg : UCfg) (c : Nat) (fs : List UFix), maxParseErrors ≤ c →
      runList (stepUAST cfg) c fs = (fs.map (fun _ => FOutcome.notReached), c))
    ∧ (∀ (u : Bool) (fs : List NatFix),
      FOutcome.skippedBudget ∉ (runNative u fs).1)
    ∧ (∀ (cfg : UCfg) (fs : List UFix),
      FOutcome.skippedBudget ∉ (runUAST cfg fs).1)
    ∧ (∀ (u : Bool) (fs : List NatFix), (runNative u fs).1.length = fs.length)
    ∧ (∀ (cfg : UCfg) (fs : List UFix), (runUAST cfg fs).1.length = fs.length) := by
  refine ⟨fun u c fs h => runList_stopped _ c fs h,
    fun cfg c fs h => runList_stopped _ c fs h,
    fun u fs => runList_no_skipped _ (stepNative_ne_skipped u) 0 fs,
    fun cfg fs => runList_no_skipped _ (stepUAST_ne_skipped cfg) 0 fs,
    fun u fs => runList_length _ 0 fs,
    fun cfg fs => runList_length _ 0 fs⟩

/-- C1 (witness for the amended theorem): at the ceiling, a one-fixture
remainder is wholly `notReached`, and a run that exhausts the budget
never emits the skip marker. -/
theorem c1_witness :
    runList (stepNative false) 3 [(⟨"d.py", .ok, "T", ⟨some "T", none⟩⟩ : NatFix)]
      = ([FOutcome.notReached], 3)
    ∧ FOutcome.skippedBudget ∉
        (runNative false
          [⟨"a.py", .err false, "", ⟨none, none⟩⟩,
           ⟨"b.py", .err false, "", ⟨none, none⟩⟩,
           ⟨"c.py", .err false, "", ⟨none, none⟩⟩,
           ⟨"d.py", .ok, "T", ⟨some "T", none⟩⟩]).1 := by
  constructor
  · have h := c1_amended.1 false 3 [(⟨"d.py", .ok, "T", ⟨some "T", none⟩⟩ : NatFix)]
      (by decide)
    simpa using h
  · exact c1_amended.2.2.1 false _

/-- C2 (counterexample). In `testFixturesUAST` the budget increment
`atomic.AddUint32(&parseErrors, 1)` precedes the syntax-error-fixture
check, so an expected syntax error on a syntax-error fixture increments
the counter in the annotated and semantic stages: with the counter at 0,
a fixture named with the `_syntax_error` marker whose parse returns a
non-driver-failure error leaves the subtest passed (`synPass`) yet the
counter at 1, refuting "an expected syntax error on a syntax-error
fixture never increments the counter" for "every validation stage". -/
theorem c2_counterexample :
    isSynErrName "a_syntax_error.py" = true
    ∧ (stepUAST ⟨false, uastExt, [], ""⟩ 0
        ⟨"a_syntax_error.py", .err false, none, "", ⟨none, none⟩⟩).1
        = FOutcome.synPass
    ∧ (stepUAST ⟨false, uastExt, [], ""⟩ 0
        ⟨"a_syntax_error.py", .err false, none, "", ⟨none, none⟩⟩).2.1 ≠ 0 := by
  exact ⟨by decide, by decide, by decide⟩

/-- C2 (amended). In the native stage the counter is incremented exactly
when `dr.Parse` returns an error and the fixture is not a syntax-error
fixture; in the annotated and semantic stages (`testFixturesUAST`) it is
incremented exactly when `dr.Parse` returns an error, including an
expected syntax error on a syntax-error fixture. (Below the ceiling; a
subtest entered at the ceiling skips immediately and changes nothing.) -/
theorem c2_amended :
    (∀ (u : Bool) (c : Nat) (f : NatFix),
      (stepNative u c f).2.1 = c +
        (if c < maxParseErrors ∧ f.res.isErr = true ∧ isSynErrName f.fname = false
         then 1 else 0))
    ∧ (∀ (cfg : UCfg) (c : Nat) (f : UFix),
      (stepUAST cfg c f).2.1 = c +
        (if c < maxParseErrors ∧ f.res.isErr = true then 1 else 0)) := by
  constructor
  · intro u c f
    rcases f with ⟨fn, res, prod, st⟩
    by_cases hc : maxParseErrors ≤ c
    · simp [stepNative, hc, Nat.not_lt.mpr hc]
    · have hc2 : c < maxParseErrors := Nat.lt_of_not_le hc
      rcases res with _ | df
      · cases hb : isSynErrName fn <;> simp [stepNative, hc, hb, PRes.isErr]
      · cases hb : isSynErrName fn <;> cases df <;>
          simp [stepNative, hc, hb, PRes.isErr, hc2]
  · intro cfg c f
    rcases f with ⟨fn, res, ua, prod, st⟩
    by_cases hc : maxParseErrors ≤ c
    · simp [stepUAST, hc, Nat.not_lt.mpr hc]
    · have hc2 : c < maxParseErrors := Nat.lt_of_not_le hc
      rcases res with _ | df
      · cases hb : isSynErrName fn
        · cases ua <;> simp [stepUAST, hc, hb, PRes.isErr, hc2]
        · simp [stepUAST, hc, hb, PRes.isErr, hc2]
      · cases hb : isSynErrName fn <;> cases df <;>
          simp [stepUAST, hc, hb, PRes.isErr, hc2]

/-- C3 (counterexample). `readFixturesFile` maps a missing file to `""`,
so an existing golden artifact whose content is empty is indistinguishable
from an absent one: with golden content `""` and produced text `"B"`
(update disabled), reconciliation takes the bootstrap branch — it
overwrites the golden with `"B"`, writes no pending-diff artifact and
reports `generated` instead of failing — refuting the claim that the
golden stays unchanged, the pending-diff holds the produced text and the
assertion fails. -/
theorem c3_counterexample :
    reconcile false "a.py" nativeExt ⟨some "", none⟩ "B"
      = (⟨some "B", none⟩, .generated)
    ∧ ¬ ((reconcile false "a.py" nativeExt ⟨some "", none⟩ "B").1.golden = some ""
        ∧ (reconcile false "a.py" nativeExt ⟨some "", none⟩ "B").1.pending = some "B"
        ∧ (reconcile false "a.py" nativeExt ⟨some "", none⟩ "B").2
            = .failMismatch ("a.py" ++ nativeExt ++ gotSuffix) ("a.py" ++ nativeExt)) := by
  exact ⟨by decide, by decide⟩

/-- C3 (amended). For every fixture and stage where a golden artifact
exists with non-empty content and differs from the produced text, with
the update flag disabled, reconciliation leaves the golden artifact's
content unchanged, writes the produced text to the pending-diff artifact
(golden name plus the reserved suffix `_got`) and fails the assertion
reporting both artifact names. (An existing empty golden is treated as
absent and regenerated by the bootstrap branch instead.) -/
theorem c3_amended (fname suf : String) (st : Store) (got e : String)
    (hg : st.golden = some e) (he : e ≠ "") (hne : e ≠ got) :
    reconcile false fname suf st got
      = ({ st with pending := some got },
         .failMismatch (fname ++ suf ++ gotSuffix) (fname ++ suf))
    ∧ (reconcile false fname suf st got).1.golden = some e := by
  rcases st with ⟨g, p⟩
  obtain rfl : g = some e := hg
  constructor
  · simp [reconcile, readFile, he, hne]
  · simp [reconcile, readFile, he, hne]

/-- C3 (witness): golden `"A"`, produced `"B"`, update disabled. -/
theorem c3_witness :
    reconcile false "a.py" nativeExt ⟨some "A", none⟩ "B"
      = (⟨some "A", some "B"⟩, .failMismatch "a.py.native_got" "a.py.native") := by
  have h := c3_amended "a.py" nativeExt ⟨some "A", none⟩ "B" "A" rfl
    (by decide) (by decide)
  exact h.1.trans (by decide)

/-- C4 (counterexample). The update path never deletes a stale
pending-diff artifact, and an existing empty golden is handled by the
bootstrap branch: with golden content `""`, a stale pending-diff `"C"`
and produced text `"B"`, update enabled, reconciliation reports
`generated` (not the updated/skip outcome) and the stale pending-diff
artifact remains — refuting "leaves no pending-diff artifact remaining"
and the updated outcome. -/
theorem c4_counterexample :
    reconcile true "a.py" highExt ⟨some "", some "C"⟩ "B"
      = (⟨some "B", some "C"⟩, .generated)
    ∧ ¬ ((reconcile true "a.py" highExt ⟨some "", some "C"⟩ "B").1.pending = none
        ∧ (reconcile true "a.py" highExt ⟨some "", some "C"⟩ "B").2
            = .updatedSkip) := by
  exact ⟨by decide, by decide⟩

/-- C4 (amended). For every fixture and stage where a golden artifact
exists with non-empty content and differs from the produced text, with
the update flag enabled, reconciliation overwrites the golden artifact
with the produced text and reports the updated/skip outcome (not a hard
failure); a pre-existing pending-diff artifact is not deleted and remains
in place. -/
theorem c4_amended (fname suf : String) (st : Store) (got e : String)
    (hg : st.golden = some e) (he : e ≠ "") (hne : e ≠ got) :
    reconcile true fname suf st got
      = ({ st with golden := some got }, .updatedSkip) := by
  have : readFile st.golden = e := by rw [hg]; rfl
  simp [reconcile, this, he, hne]

/-- C4 (witness): golden `"A"`, stale pending `"C"`, produced `"B"`,
update enabled: golden becomes `"B"`, the stale pending-diff remains. -/
theorem c4_witness :
    reconcile true "a.py" highExt ⟨some "A", some "C"⟩ "B"
      = (⟨some "B", some "C"⟩, .updatedSkip) := by
  have h := c4_amended "a.py" highExt ⟨some "A", some "C"⟩ "B" "A" rfl
    (by decide) (by decide)
  exact h.trans (by decide)

/-- C5 (counterexample). An existing golden artifact with empty content
is overwritten without any update flag: with golden content `""` and
produced `"B"`, update disabled, the bootstrap branch rewrites the golden
to `"B"`, refuting "reconciliation with the update flag disabled never
changes an existing golden artifact's content". -/
theorem c5_counterexample :
    (reconcile false "a.py" nativeExt ⟨some "", none⟩ "B").1.golden = some "B"
    ∧ ¬ ((reconcile false "a.py" nativeExt ⟨some "", none⟩ "B").1.golden
          = some "") := by
  exact ⟨by decide, by decide⟩

/-- C5 (amended). For every fixture and stage, an existing golden
artifact with non-empty content is never changed by reconciliation when
the update flag is disabled, whatever the produced text; only an existing
but empty golden artifact (indistinguishable from a missing one to
`readFixturesFile`) is rewritten by the bootstrap branch. -/
theorem c5_amended (fname suf : String) (st : Store) (got e : String)
    (hg : st.golden = some e) (he : e ≠ "") :
    (reconcile false fname suf st got).1.golden = some e := by
  rcases st with ⟨g, p⟩
  obtain rfl : g = some e := hg
  by_cases hne : e = got
  · subst hne
    simp [reconcile, readFile, he]
  · simp [reconcile, readFile, he, hne]

/-- C5 (witness): a non-empty golden survives a mismatching produced
text with the update flag disabled. -/
theorem c5_witness :
    (reconcile false "a.py" nativeExt ⟨some "A", none⟩ "B").1.golden
      = some "A" :=
  c5_amended "a.py" nativeExt ⟨some "A", none⟩ "B" "A" rfl (by decide)

/-- C6 (counterexample). With an existing golden artifact of empty
content, an equal (empty) produced text and a stale pending-diff `"C"`,
reconciliation takes the bootstrap branch: the outcome is `generated`
rather than a pass and the stale pending-diff artifact is not deleted —
refuting the claim for byte-for-byte equal texts. -/
theorem c6_counterexample :
    reconcile false "a.py" highExt ⟨some "", some "C"⟩ ""
      = (⟨some "", some "C"⟩, .generated)
    ∧ ¬ ((reconcile false "a.py" highExt ⟨some "", some "C"⟩ "").2
          = RecOutcome.pass
        ∧ (reconcile false "a.py" highExt ⟨some "", some "C"⟩ "").1.pending
          = none) := by
  exact ⟨by decide, by decide⟩

/-- C6 (amended). For every fixture and stage where the produced text
equals the existing golden artifact byte-for-byte and that content is
non-empty, reconciliation (with either update flag value) yields a pass
and leaves the fixture store unchanged except that any stale pending-diff
artifact for that golden is deleted. (Two empty equal texts take the
bootstrap branch instead: outcome `generated`, stale pending-diff kept.) -/
theorem c6_amended (update : Bool) (fname suf : String) (st : Store) (e : String)
    (hg : st.golden = some e) (he : e ≠ "") :
    reconcile update fname suf st e = ({ st with pending := none }, .pass) := by
  have hr : readFile st.golden = e := by rw [hg]; rfl
  simp [reconcile, hr, he]

/-- C6 (witness): reconciling golden `"A"` against produced `"A"` passes
and deletes the stale pending-diff. -/
theorem c6_witness :
    reconcile false "a.py" highExt ⟨some "A", some "C"⟩ "A"
      = (⟨some "A", none⟩, .pass) := by
  have h := c6_amended false "a.py" highExt ⟨some "A", some "C"⟩ "A" rfl (by decide)
  exact h.trans (by decide)

/-- C7 (confirmed). For every fixture whose name contains the
syntax-error marker, entered below the budget ceiling, the subtest passes
(`synPass`) exactly when `dr.Parse` returned an error not classified as a
driver failure; a successful parse or a driver-failure-classified error
fails the subtest (`synFail`); and no golden comparison is performed: the
fixture's store is returned untouched and the outcome is never a
reconciliation outcome. This holds in the native stage and in both UAST
stages. -/
theorem c7_theorem (u : Bool) (cfg : UCfg) (c : Nat) (f : NatFix) (g : UFix)
    (hc : c < maxParseErrors)
    (hf : isSynErrName f.fname = true) (hg : isSynErrName g.fname = true) :
    ((stepNative u c f).1 = (match f.res with
        | .err false => FOutcome.synPass
        | _ => FOutcome.synFail)
      ∧ (stepNative u c f).2.2 = f.store)
    ∧ ((stepUAST cfg c g).1 = (match g.res with
        | .err false => FOutcome.synPass
        | _ => FOutcome.synFail)
      ∧ (stepUAST cfg c g).2.2 = g.store) := by
  have h2 : ¬ maxParseErrors ≤ c := Nat.not_le.mpr hc
  constructor
  · rcases f with ⟨fn, res, prod, st⟩
    simp only at hf
    rcases res with _ | df
    · simp [stepNative, h2, hf]
    · cases df <;> simp [stepNative, h2, hf]
  · rcases g with ⟨fn, res, ua, prod, st⟩
    simp only at hg
    rcases res with _ | df
    · simp [stepUAST, h2, hg]
    · cases df <;> simp [stepUAST, h2, hg]

/-- C7 (witness): a syntax-error fixture with an input-classified parse
error passes in both stage families; one with a successful parse fails. -/
theorem c7_witness :
    ((stepNative false 0 ⟨"x_syntax_error.py", .err false, "", ⟨none, none⟩⟩).1
        = FOutcome.synPass
      ∧ (stepNative false 0 ⟨"x_syntax_error.py", .err false, "", ⟨none, none⟩⟩).2.2
        = (⟨none, none⟩ : Store))
    ∧ ((stepUAST ⟨false, uastExt, [], ""⟩ 0
          ⟨"x_syntax_error.py", .ok, none, "", ⟨none, none⟩⟩).1
        = FOutcome.synFail
      ∧ (stepUAST ⟨false, uastExt, [], ""⟩ 0
          ⟨"x_syntax_error.py", .ok, none, "", ⟨none, none⟩⟩).2.2
        = (⟨none, none⟩ : Store)) := by
  have h := c7_theorem false ⟨false, uastExt, [], ""⟩ 0
    ⟨"x_syntax_error.py", .err false, "", ⟨none, none⟩⟩
    ⟨"x_syntax_error.py", .ok, none, "", ⟨none, none⟩⟩
    (by decide) (by decide) (by decide)
  exact ⟨⟨h.1.1, h.1.2⟩, ⟨h.2.1, h.2.2⟩⟩

/-- C8 (confirmed). For a non-empty forbidden-type list, the single
pre-order walk (`semTags` lists the non-empty, namespace-stripped type
tags in walk order) yields, for each forbidden tag, its occurrence count;
the reporting loop emits exactly the forbidden tags with at least one
occurrence, paired with their counts, and the scan passes (reports
nothing) precisely when every forbidden tag has zero occurrences. -/
theorem c8_theorem (ns : String) (bl : List String) (t : NNode)
    (_hbl : bl ≠ []) :
    (∀ typ n, (typ, n) ∈ violationsList ns bl t ↔
      (typ ∈ bl ∧ n = blackCount ns t typ ∧ n ≠ 0))
    ∧ (blackScanFails ns bl t = false ↔
      ∀ typ ∈ bl, blackCount ns t typ = 0) := by
  constructor
  · intro typ n
    simp only [violationsList, List.mem_map, List.mem_filter, List.mem_dedup]
    constructor
    · rintro ⟨k, ⟨hk, hcnt⟩, heq⟩
      obtain ⟨rfl, rfl⟩ := Prod.mk.injEq .. ▸ heq
      exact ⟨hk, rfl, by simpa using hcnt⟩
    · rintro ⟨htyp, rfl, hn⟩
      exact ⟨typ, ⟨htyp, by simpa using hn⟩, rfl⟩
  · simp only [blackScanFails, bne_eq_false_iff_eq, violationsList,
      List.map_eq_nil_iff, List.filter_eq_nil_iff, List.mem_dedup, bne_iff_ne,
      ne_eq, not_not]

/-- C8 (witness): with forbidden list `["a"]` and a tree containing one
`ns:a`-tagged node under namespace `ns`, the scan fails and reports
`("a", 1)`; on a tagless tree it passes. -/
theorem c8_witness :
    (("a", 1) ∈ violationsList "ns" ["a"] (.obj "ns:a" [.leaf]))
    ∧ blackScanFails "ns" ["a"] NNode.leaf = false := by
  have h1 := c8_theorem "ns" ["a"] (.obj "ns:a" [.leaf]) (by decide)
  have h2 := c8_theorem "ns" ["a"] NNode.leaf (by decide)
  constructor
  · exact (h1.1 "a" 1).mpr ⟨by decide, by decide, by decide⟩
  · exact h2.2.mpr (by decide)

/-- C9 (counterexample). The reporting loop iterates the `foundBlack` Go
map with `range`, whose iteration order is unspecified (and randomized by
the Go runtime): with forbidden tags `"a"` and `"b"` both occurring once,
both `[("a",1),("b",1)]` and `[("b",1),("a",1)]` are admissible reports of
a run, and they differ — so two runs on the same inputs need not report
in the same order, and the order is not guaranteed lexicographic. -/
theorem c9_counterexample :
    ReportedOrder "" ["a", "b"] (.obj "" [.obj "a" [], .obj "b" []])
      [("a", 1), ("b", 1)]
    ∧ ReportedOrder "" ["a", "b"] (.obj "" [.obj "a" [], .obj "b" []])
      [("b", 1), ("a", 1)]
    ∧ ([("a", 1), ("b", 1)] : List (String × Nat)) ≠ [("b", 1), ("a", 1)] := by
  refine ⟨?_, ?_, by decide⟩
  · exact List.isPerm_iff.mp (by decide)
  · exact List.isPerm_iff.mp (by decide)

/-- C9 (amended). For every tree and forbidden-type configuration, the
*content* of the report is deterministic: any two admissible reports of
the scan on the same inputs are permutations of each other and contain
exactly the same (tag, count) entries; only the order in which the
entries are emitted is unspecified (Go map `range` order), so it need not
be lexicographic nor stable across runs. -/
theorem c9_amended (ns : String) (bl : List String) (t : NNode)
    (l1 l2 : List (String × Nat))
    (h1 : ReportedOrder ns bl t l1) (h2 : ReportedOrder ns bl t l2) :
    l1.Perm l2 ∧ ∀ p, p ∈ l1 ↔ p ∈ l2 := by
  have hp : l1.Perm l2 := h1.trans h2.symm
  exact ⟨hp, fun p => hp.mem_iff⟩

/-- C9 (witness): the two admissible reports of the counterexample
configuration are permutations with the same entries. -/
theorem c9_witness :
    ([("a", 1), ("b", 1)] : List (String × Nat)).Perm [("b", 1), ("a", 1)]
    ∧ ((("b", 1) : String × Nat) ∈ ([("a", 1), ("b", 1)] : List (String × Nat))
      ↔ (("b", 1) : String × Nat) ∈ ([("b", 1), ("a", 1)] : List (String × Nat))) := by
  have h := c9_amended "" ["a", "b"] (.obj "" [.obj "a" [], .obj "b" []])
    [("a", 1), ("b", 1)] [("b", 1), ("a", 1)]
    (List.isPerm_iff.mp (by decide)) (List.isPerm_iff.mp (by decide))
  exact ⟨h.1, h.2 ("b", 1)⟩

/-- C10 (confirmed). `RunTests` runs the three validation stages with
independent error-budget counters: each stage run is exactly its stage
function started from a fresh counter at 0 (`var parseErrors uint32`),
and the outcome of any stage is unchanged when the fixtures (hence the
parse failures) of the other stages change — failures recorded in one
stage never cause fixtures to be skipped in a different stage. The
counter is local to the stage function and discarded when it returns. -/
theorem c10_theorem :
    ∀ (updN updU : Bool) (ns : String) (bl : List String)
      (fsN fsN2 : List NatFix) (fsA fsA2 fsS fsS2 : List UFix),
      (runTests updN updU ns bl fsN fsA fsS).1
        = runList (stepNative updN) 0 fsN
      ∧ (runTests updN updU ns bl fsN fsA fsS).2.1
        = runList (stepUAST ⟨updU, uastExt, [], ns⟩) 0 fsA
      ∧ (runTests updN updU ns bl fsN fsA fsS).2.2
        = runList (stepUAST ⟨updU, highExt, bl, ns⟩) 0 fsS
      ∧ (runTests updN updU ns bl fsN fsA fsS).1
        = (runTests updN updU ns bl fsN fsA2 fsS2).1
      ∧ (runTests updN updU ns bl fsN fsA fsS).2.1
        = (runTests updN updU ns bl fsN2 fsA fsS2).2.1
      ∧ (runTests updN updU ns bl fsN fsA fsS).2.2
        = (runTests updN updU ns bl fsN2 fsA2 fsS).2.2 :=
  fun _ _ _ _ _ _ _ _ _ _ => ⟨rfl, rfl, rfl, rfl, rfl, rfl⟩

end Fixtures
